import Mathlib

/-!
Verification of the naija-lingo course-marketplace front-end.

This file gives a shallow embedding of the client-side logic of the
repository and proves properties of it:

* the course filter/sort pipeline of `src/pages/Index.tsx` (`applyFilters`);
* the upload validation of `src/components/FileUploader.tsx`;
* the quiz draft validation of `src/components/QuizManager.tsx`;
* the enrollment handlers of `EnrollmentButton` and `src/pages/CourseDetail.tsx`;
* the lesson-management operations of `LessonManagement`;
* the realtime notification handler of `NotificationCenter`.

Modelling conventions: JavaScript numbers are modelled as `Nat`/`Int`/`ℚ`
(no floating point rounding is relevant to any property proved here);
`Array.prototype.sort`, which ECMA-262 requires to be stable, is modelled
as `List.insertionSort`, a stable sort — for a consistent comparator every
stable sort produces the same output, and for an inconsistent comparator
(one returning NaN, which ECMA-262's SortCompare coerces to `+0` and for
which the resulting order is implementation-defined) the embedding fixes
the insertion-sort order.  `parseFloat` is modelled as the parse of the
longest numeric prefix (sign, digits, optional fraction, optional
exponent; `Infinity` literals are not modelled as they cannot arise from
the comparisons studied here).  `String.prototype.toLowerCase` is
modelled on the ASCII range, which covers every string the application
compares.
-/

/-- A catalog record as mapped in `Index.tsx` (`mappedCourses` / `mockCourses`):
the fields used by the filter/sort pipeline, with `price` kept as the
currency-formatted display string the code produces. -/
structure Course where
  id : Nat
  title : String
  instructor : String
  language : String
  level : String
  duration : String
  students : Nat
  rating : ℚ
  price : String
  description : String
deriving DecidableEq

/-- Model of `String.prototype.toLowerCase` (ASCII range). -/
def jsToLower (s : String) : String :=
  ⟨s.toList.map Char.toLower⟩

/-- Head test: `startsWithChars hay needle` holds when `needle` matches `hay` at its head. -/
def startsWithChars : List Char → List Char → Bool
  | _, [] => true
  | [], _ :: _ => false
  | h :: hs, n :: ns => h == n && startsWithChars hs ns

/-- Substring test: `containsChars hay needle` is the predicate behind
`String.prototype.includes`. -/
def containsChars : List Char → List Char → Bool
  | [], needle => startsWithChars [] needle
  | c :: t, needle => startsWithChars (c :: t) needle || containsChars t needle

/-- Model of `s.includes(sub)`. -/
def jsIncludes (s sub : String) : Bool :=
  containsChars s.toList sub.toList

/-- Model of `price.replace(/[₦,]/g, '')`: drop every naira sign and comma. -/
def stripNaira (s : String) : String :=
  ⟨s.toList.filter (fun c => !(c == '₦' || c == ','))⟩

/-- Numeric value of a digit string (most significant digit first). -/
def digitsVal (ds : List Char) : Nat :=
  ds.foldl (fun n c => n * 10 + (c.toNat - '0'.toNat)) 0

/-- Model of `parseFloat`: skip leading whitespace, read an optional sign,
digits, an optional fraction and an optional exponent; `none` models `NaN`
(no digit consumed).  The value `± d₁…dₙ.f₁…fₘ e±k` equals
`± digits(d₁…dₙf₁…fₘ) · 10^(k−m)`, which is how it is built here (through
`mkRat`, so that the kernel can evaluate it on concrete strings). -/
def jsParseFloat (s : String) : Option ℚ :=
  let cs := s.toList.dropWhile (fun c => c == ' ' || c == '\t' || c == '\n' || c == '\r')
  let signRest : Int × List Char :=
    match cs with
    | '-' :: r => (-1, r)
    | '+' :: r => (1, r)
    | _ => (1, cs)
  let intPart := signRest.2.takeWhile Char.isDigit
  let r1 := signRest.2.dropWhile Char.isDigit
  let fracRest : List Char × List Char :=
    match r1 with
    | '.' :: r => (r.takeWhile Char.isDigit, r.dropWhile Char.isDigit)
    | _ => ([], r1)
  if intPart.isEmpty && fracRest.1.isEmpty then none
  else
    let expDigits : List Char → Int := fun d =>
      (digitsVal (d.takeWhile Char.isDigit) : Int)
    let expVal : Int :=
      match fracRest.2 with
      | 'e' :: '-' :: d => if (d.takeWhile Char.isDigit).isEmpty then 0 else -(expDigits d)
      | 'e' :: '+' :: d => if (d.takeWhile Char.isDigit).isEmpty then 0 else expDigits d
      | 'e' :: d => if (d.takeWhile Char.isDigit).isEmpty then 0 else expDigits d
      | 'E' :: '-' :: d => if (d.takeWhile Char.isDigit).isEmpty then 0 else -(expDigits d)
      | 'E' :: '+' :: d => if (d.takeWhile Char.isDigit).isEmpty then 0 else expDigits d
      | 'E' :: d => if (d.takeWhile Char.isDigit).isEmpty then 0 else expDigits d
      | _ => 0
    let scale : Int := expVal - fracRest.1.length
    let mant : Int := signRest.1 * (digitsVal (intPart ++ fracRest.1) : Int)
    some (if 0 ≤ scale then mkRat (mant * ((10 : Nat) ^ scale.toNat : Nat)) 1
      else mkRat mant ((10 : Nat) ^ (-scale).toNat))

/-- The price key the comparators of `applyFilters` compute:
`a.price === 'Free' ? 0 : parseFloat(a.price.replace(/[₦,]/g, ''))`;
`none` models `NaN`. -/
def priceVal (c : Course) : Option ℚ :=
  if c.price = "Free" then some 0 else jsParseFloat (stripNaira c.price)

/-- Ordering of optional price keys as the JS sort sees it: a comparator
result of `NaN` is coerced to `+0` by SortCompare, so a missing key ties
with everything. -/
def optLe (x y : Option ℚ) : Prop :=
  match x, y with
  | some a, some b => a ≤ b
  | _, _ => True

instance optLe.decidable : DecidableRel optLe
  | some a, some b => inferInstanceAs (Decidable (a ≤ b))
  | some _, none => .isTrue trivial
  | none, some _ => .isTrue trivial
  | none, none => .isTrue trivial

/-- Comparator `(a, b) => b.students - a.students`: keep `a` before `b` when the
comparator result is `≤ 0`. -/
def popularLe (a b : Course) : Prop := b.students ≤ a.students

instance : DecidableRel popularLe := fun a b =>
  inferInstanceAs (Decidable (b.students ≤ a.students))

/-- Comparator `(a, b) => b.rating - a.rating`. -/
def ratingLe (a b : Course) : Prop := b.rating ≤ a.rating

instance : DecidableRel ratingLe := fun a b =>
  inferInstanceAs (Decidable (b.rating ≤ a.rating))

/-- The `price-low` comparator `priceA - priceB` as a (non-strict) order. -/
def priceLowLe (a b : Course) : Prop := optLe (priceVal a) (priceVal b)

instance : DecidableRel priceLowLe := fun a b =>
  optLe.decidable (priceVal a) (priceVal b)

/-- The `price-high` comparator `priceB - priceA` as a (non-strict) order. -/
def priceHighLe (a b : Course) : Prop := optLe (priceVal b) (priceVal a)

instance : DecidableRel priceHighLe := fun a b =>
  optLe.decidable (priceVal b) (priceVal a)

/-- The `switch (sortBy)` of `applyFilters`: each branch is a stable
in-place sort with the given comparator; `newest` and unknown keys leave
the list as is. -/
def sortCourses (sortBy : String) (l : List Course) : List Course :=
  if sortBy = "popular" then l.insertionSort popularLe
  else if sortBy = "rating" then l.insertionSort ratingLe
  else if sortBy = "newest" then l
  else if sortBy = "price-low" then l.insertionSort priceLowLe
  else if sortBy = "price-high" then l.insertionSort priceHighLe
  else l

/-- The free-text predicate of `applyFilters`: case-insensitive substring
match against title, instructor or language. -/
def matchesQuery (q : String) (c : Course) : Bool :=
  jsIncludes (jsToLower c.title) (jsToLower q) ||
  jsIncludes (jsToLower c.instructor) (jsToLower q) ||
  jsIncludes (jsToLower c.language) (jsToLower q)

/-- The three guarded `filter` passes of `applyFilters`:
the text filter runs when the query is non-empty (JS truthiness), the
equality filters when a value other than `''` and `'all'` is set. -/
def filterCourses (courses : List Course) (q lang lvl : String) : List Course :=
  let f1 := if q = "" then courses else courses.filter (matchesQuery q)
  let f2 := if lang = "" ∨ lang = "all" then f1
    else f1.filter (fun c => jsToLower c.language == jsToLower lang)
  if lvl = "" ∨ lvl = "all" then f2
  else f2.filter (fun c => jsToLower c.level == jsToLower lvl)

/-- The pipeline `applyFilters` of `Index.tsx`: copy, filter, then sort. -/
def applyFilters (courses : List Course) (q lang lvl sortBy : String) : List Course :=
  sortCourses sortBy (filterCourses courses q lang lvl)

/-- Follows the spec's words (refinement reference, not the code): the
parsed price of a course, where "Free" maps to 0, non-digit separators
are stripped, and a malformed price string degrades to 0. -/
def specPriceVal (c : Course) : ℚ :=
  if c.price = "Free" then 0 else (jsParseFloat (stripNaira c.price)).getD 0

/-- Ascending order on the spec's parsed prices. -/
def specPriceLowLe (a b : Course) : Prop := specPriceVal a ≤ specPriceVal b

instance : DecidableRel specPriceLowLe := fun a b =>
  inferInstanceAs (Decidable (specPriceVal a ≤ specPriceVal b))

/-- Descending order on the spec's parsed prices. -/
def specPriceHighLe (a b : Course) : Prop := specPriceVal b ≤ specPriceVal a

instance : DecidableRel specPriceHighLe := fun a b =>
  inferInstanceAs (Decidable (specPriceVal b ≤ specPriceVal a))

/-- Follows the spec's words (refinement reference): sorting where a
malformed price degrades to 0 instead of producing `NaN` ties. -/
def specSortCourses (sortBy : String) (l : List Course) : List Course :=
  if sortBy = "popular" then l.insertionSort popularLe
  else if sortBy = "rating" then l.insertionSort ratingLe
  else if sortBy = "newest" then l
  else if sortBy = "price-low" then l.insertionSort specPriceLowLe
  else if sortBy = "price-high" then l.insertionSort specPriceHighLe
  else l

/-- Follows the spec's words (refinement reference): the pipeline with the
degrade-to-0 price semantics. -/
def specApplyFilters (courses : List Course) (q lang lvl sortBy : String) : List Course :=
  specSortCourses sortBy (filterCourses courses q lang lvl)

/-! ## FileUploader (`src/components/FileUploader.tsx`) -/

/-- Model of `split` on a single separator character (JS `String.prototype.split`
semantics: `"a,"` gives `["a", ""]`, `""` gives `[""]`). -/
def splitOnChar (sep : Char) : List Char → List (List Char)
  | [] => [[]]
  | c :: t =>
    if c == sep then [] :: splitOnChar sep t
    else
      match splitOnChar sep t with
      | [] => [[c]]
      | h :: t2 => (c :: h) :: t2

/-- Model of `s.split(sep)`. -/
def jsSplit (s : String) (sep : Char) : List String :=
  (splitOnChar sep s.toList).map (fun l => ⟨l⟩)

/-- Model of `s.trim()` (ASCII whitespace suffices here). -/
def jsTrim (s : String) : String :=
  ⟨((s.toList.dropWhile (fun c => c == ' ' || c == '\t' || c == '\n' || c == '\r')).reverse.dropWhile
      (fun c => c == ' ' || c == '\t' || c == '\n' || c == '\r')).reverse⟩

/-- The `FileUploader` props that `validateFile` reads: `maxSize` in MB
(default 100) and the `accept` pattern (default `"*/*"`). -/
structure UploadConfig where
  accept : String
  maxSize : Nat
deriving DecidableEq

/-- The parts of a browser `File` that `validateFile` reads. -/
structure FileRec where
  name : String
  size : Nat
  mime : String
deriving DecidableEq

/-- Model of `` `.${file.name.split('.').pop()?.toLowerCase()}` ``. -/
def fileExtension (name : String) : String :=
  "." ++ jsToLower ((jsSplit name '.').getLastD "")

/-- The `validateFile` of `FileUploader.tsx`: returns a rejection reason, or
`none` when the file is acceptable. -/
def validateFile (cfg : UploadConfig) (f : FileRec) : Option String :=
  if f.size > cfg.maxSize * 1024 * 1024 then
    some ("File size exceeds " ++ toString cfg.maxSize ++ "MB limit")
  else if cfg.accept ≠ "*/*" then
    let acceptedTypes := (jsSplit cfg.accept ',').map jsTrim
    if acceptedTypes.any (fun t => t == f.mime || t == fileExtension f.name || t == "*/*") then
      none
    else
      some ("File type not supported. Accepted types: " ++ cfg.accept)
  else none

/-- An entry of the `uploadingFiles` tracker state. -/
structure UploadingFile where
  fileName : String
  progress : Nat
  status : String
deriving DecidableEq

/-- Result of the synchronous head of `uploadFile`: the new tracker list,
whether a transfer was started, and the rejection reason if any. -/
structure UploadStartResult where
  tracked : List UploadingFile
  started : Bool
  rejection : Option String
deriving DecidableEq

/-- The synchronous head of `uploadFile`: validate; on a violation report
the reason and return before anything is enqueued; otherwise append an
`uploading` entry and start the transfer. -/
def uploadFileStart (cfg : UploadConfig) (f : FileRec) (tracked : List UploadingFile) :
    UploadStartResult :=
  match validateFile cfg f with
  | some reason => ⟨tracked, false, some reason⟩
  | none => ⟨tracked ++ [⟨f.name, 0, "uploading"⟩], true, none⟩

/-- The semantic acceptance condition of `validateFile`, spelled out:
the size is within the limit, and either every type is accepted or some
configured entry matches the MIME type, the extension, or is `*/*`. -/
def fileAcceptable (cfg : UploadConfig) (f : FileRec) : Prop :=
  f.size ≤ cfg.maxSize * 1024 * 1024 ∧
    (cfg.accept = "*/*" ∨
      ∃ t ∈ (jsSplit cfg.accept ',').map jsTrim,
        t = f.mime ∨ t = fileExtension f.name ∨ t = "*/*")

/-! ## QuizManager (`src/components/QuizManager.tsx`) -/

/-- A quiz question draft as edited in `QuizManager`. -/
structure Question where
  id : String
  question : String
  options : List String
  correctAnswer : Nat
  explanation : String
deriving DecidableEq

/-- Outcome of `handleSubmit` in `QuizManager`: blocked locally with a
validation toast, or exactly one create-or-update request. -/
inductive SubmitResult where
  | blocked (msg : String)
  | request (isUpdate : Bool)
deriving DecidableEq

/-- The `handleSubmit` of `QuizManager.tsx` (the local-validation head and the
single insert-or-update that follows it). -/
def quizHandleSubmit (questions : List Question) (editing : Bool) : SubmitResult :=
  if questions.length = 0 then
    .blocked "Please add at least one question"
  else if 0 < (questions.filter (fun q =>
      jsTrim q.question == "" || q.options.any (fun o => jsTrim o == ""))).length then
    .blocked "Please fill in all question fields"
  else
    .request editing

/-! ## Enrollment (`EnrollmentButton` and `src/pages/CourseDetail.tsx`) -/

/-- A row of the external `enrollments` table. -/
structure Enrollment where
  courseId : Nat
  studentId : Nat
  progress : Nat
deriving DecidableEq

/-- Modelled from the spec: the external data service's `enrollments`
table keeps at most one row per (course, student); a duplicate insert is
rejected with Postgres conflict code `23505` and inserts nothing.  (The
table definition itself is not part of `src/`; the spec states that
enrollment creation is exactly-once and duplicates conflict.) -/
def insertEnrollment (db : List Enrollment) (row : Enrollment) :
    List Enrollment × Option String :=
  if db.any (fun e => e.courseId == row.courseId && e.studentId == row.studentId) then
    (db, some "23505")
  else (db ++ [row], none)

/-- The signed-in viewer as `handleEnroll` sees it (`user` plus
`userProfile`; a missing profile behaves like a non-student role). -/
structure Viewer where
  signedIn : Bool
  role : String
  id : Nat
deriving DecidableEq

/-- The user-visible outcome of an enroll attempt. -/
inductive EnrollOutcome where
  | signInRedirect
  | notStudent
  | notPublished
  | enrolled
  | alreadyEnrolled
  | genericFailure
deriving DecidableEq

/-- The `handleEnroll` of `EnrollmentButton`: guards (sign-in, student role,
published course), then one insert with `progress: 0`; a `23505` error is
surfaced as the already-enrolled conflict. -/
def handleEnroll (v : Viewer) (courseId : Nat) (isPublished : Bool)
    (db : List Enrollment) : List Enrollment × EnrollOutcome :=
  if !v.signedIn then (db, .signInRedirect)
  else if v.role ≠ "student" then (db, .notStudent)
  else if !isPublished then (db, .notPublished)
  else
    match insertEnrollment db { courseId := courseId, studentId := v.id, progress := 0 } with
    | (db2, none) => (db2, .enrolled)
    | (db2, some code) =>
      (db2, if code = "23505" then .alreadyEnrolled else .genericFailure)

/-- The `handleEnroll` of `CourseDetail.tsx`: it checks sign-in and role but
never consults the course's published flag (the parameter is the loaded
course's flag, which the handler ignores), inserts without an explicit
progress (the column default 0 is modelled from the spec's "create one
Enrollment row with progress 0"), and reports every insert error with the
generic failure toast. -/
def detailHandleEnroll (v : Viewer) (courseId : Nat) (isPublished : Bool)
    (db : List Enrollment) : List Enrollment × EnrollOutcome :=
  if !v.signedIn then (db, .signInRedirect)
  else if v.role ≠ "student" then (db, .notStudent)
  else
    match insertEnrollment db { courseId := courseId, studentId := v.id, progress := 0 } with
    | (db2, none) => (db2, .enrolled)
    | (db2, some _) => (db2, .genericFailure)

/-- Number of enrollment rows for a (course, student) pair. -/
def countEnroll (db : List Enrollment) (courseId studentId : Nat) : Nat :=
  db.countP (fun e => e.courseId == courseId && e.studentId == studentId)

/-! ## LessonManagement (lesson create / edit / delete / reorder) -/

/-- A row of the `lessons` table as `LessonManagement` uses it. -/
structure Lesson where
  id : Nat
  title : String
  lessonType : String
  order_index : Nat
deriving DecidableEq

/-- Create: `handleSubmit` without `editingLesson` inserts the new lesson is inserted
with `order_index: lessons.length`, appending at the end. -/
def createLesson (lessons : List Lesson) (l : Lesson) : List Lesson :=
  lessons ++ [{ l with order_index := lessons.length }]

/-- Edit: with `editingLesson` set, `handleSubmit` updates the row; the row is updated in place and
keeps `editingLesson.order_index`. -/
def editLesson (lessons : List Lesson) (editedId : Nat) (l : Lesson) : List Lesson :=
  lessons.map (fun e =>
    if e.id == editedId then { l with id := e.id, order_index := e.order_index } else e)

/-- Delete: in `handleDelete` the row is deleted; no other row is touched (in
particular nothing is renumbered). -/
def deleteLesson (lessons : List Lesson) (lessonId : Nat) : List Lesson :=
  lessons.filter (fun e => e.id != lessonId)

/-- Reorder: `reorderLessons` sets every lesson's `order_index` to its position
in the given order. -/
def reorderLessons (lessons : List Lesson) : List Lesson :=
  lessons.mapIdx (fun i l => { l with order_index := i })

/-- The spec's ordering-index invariant: the indexes of a course's lessons
are exactly `0, …, n−1` (unique and contiguous). -/
def contiguousIndexes (lessons : List Lesson) : Prop :=
  (lessons.map Lesson.order_index).Perm (List.range lessons.length)

instance contiguousIndexes.dec (lessons : List Lesson) :
    Decidable (contiguousIndexes lessons) :=
  inferInstanceAs (Decidable (List.Perm _ _))

/-! ## NotificationCenter (realtime INSERT handler) -/

/-- The payload of a `postgres_changes` INSERT event, as stored locally. -/
structure NotifPayload where
  id : String
  title : String
  message : String
deriving DecidableEq

/-- The local state the handler updates. -/
structure NotifState where
  notifications : List NotifPayload
  unreadCount : Nat
deriving DecidableEq

/-- The subscription callback of `NotificationCenter`: it prepends the
payload and increments the unread count, unconditionally. -/
def handleNotificationInsert (payload : NotifPayload) (s : NotifState) : NotifState :=
  { notifications := payload :: s.notifications, unreadCount := s.unreadCount + 1 }

/-! ## Heap model for the mutation claim about `applyFilters`

JS arrays are references into a heap.  `applyFilters` spreads the input
into a fresh array, rebinds `filtered` to the fresh arrays returned by
`filter`, and finally sorts the last one in place.  The heap records every
array ever allocated; a reference is an index into it. -/

/-- The array heap: allocated course arrays, addressed by index. -/
abbrev CourseHeap : Type := List (List Course)

/-- Dereference an array. -/
def getArr (h : CourseHeap) (r : Nat) : List Course :=
  List.getD h r []

/-- Allocate a fresh array (as `[...courses]` and `filter` do). -/
def allocArr (h : CourseHeap) (contents : List Course) : CourseHeap × Nat :=
  (h ++ [contents], List.length h)

/-- Overwrite an array in place (as `sort` does). -/
def setArr (h : CourseHeap) (r : Nat) (contents : List Course) : CourseHeap :=
  List.set h r contents

/-- The heap version of `applyFilters`: spread-copy, the three guarded `filter`
passes (each returning a fresh array), then the in-place sort of the last
array.  Returns the new heap and the reference held in `filtered`. -/
def applyFiltersHeap (h : CourseHeap) (coursesRef : Nat) (q lang lvl sortBy : String) :
    CourseHeap × Nat :=
  let a1 := allocArr h (getArr h coursesRef)
  let a2 := if q = "" then a1
    else allocArr a1.1 ((getArr a1.1 a1.2).filter (matchesQuery q))
  let a3 := if lang = "" ∨ lang = "all" then a2
    else allocArr a2.1 ((getArr a2.1 a2.2).filter (fun c => jsToLower c.language == jsToLower lang))
  let a4 := if lvl = "" ∨ lvl = "all" then a3
    else allocArr a3.1 ((getArr a3.1 a3.2).filter (fun c => jsToLower c.level == jsToLower lvl))
  (setArr a4.1 a4.2 (sortCourses sortBy (getArr a4.1 a4.2)), a4.2)

/-- Invariant threaded through the heap pipeline: the held reference is a
fresh array (allocated at or after the original heap's end), it holds the
pure intermediate list, and the original array is untouched. -/
def HeapInv (orig : CourseHeap) (r : Nat) (a : CourseHeap × Nat) (cur : List Course) : Prop :=
  a.2 < List.length a.1 ∧ List.length orig ≤ a.2 ∧
    getArr a.1 r = getArr orig r ∧ getArr a.1 a.2 = cur

/-! ## Concrete sample data used by witnesses and counterexamples -/

/-- A course with a well-formed price string. -/
def cNum : Course :=
  { id := 1, title := "Course A", instructor := "Ada", language := "Yoruba",
    level := "Beginner", duration := "8 weeks", students := 10, rating := 5,
    price := "₦100", description := "a" }

/-- A course with a malformed price string (`parseFloat` gives `NaN`). -/
def cBad : Course :=
  { id := 2, title := "Course B", instructor := "Bola", language := "Igbo",
    level := "Beginner", duration := "6 weeks", students := 20, rating := 4,
    price := "N/A", description := "b" }

/-- A free course. -/
def cFree : Course :=
  { id := 3, title := "Course C", instructor := "Chi", language := "Hausa",
    level := "Beginner", duration := "6 weeks", students := 30, rating := 3,
    price := "Free", description := "c" }

/-- Three lessons with contiguous ordering indexes 0, 1, 2. -/
def lessons012 : List Lesson :=
  [⟨1, "intro", "video", 0⟩, ⟨2, "middle", "text", 1⟩, ⟨3, "end", "video", 2⟩]

/-- A quiz question whose third option is the empty string. -/
def qEmptyOption : Question :=
  ⟨"q1", "How do you greet?", ["Bawo", "Sannu", "", "Ndewo"], 0, ""⟩

/-- A 150MB video file. -/
def bigFile : FileRec :=
  ⟨"clip.mp4", 150 * 1024 * 1024, "video/mp4"⟩

/-- The default uploader configuration: 100MB limit, all types. -/
def cfg100 : UploadConfig := ⟨"*/*", 100⟩

/-- A signed-in student viewer. -/
def vStudent : Viewer := ⟨true, "student", 7⟩

/-- A sample realtime notification payload. -/
def notifNew : NotifPayload := ⟨"n1", "New Course Enrollment", "someone enrolled"⟩

/-- A heap holding one two-course catalog array. -/
def heap0 : CourseHeap := [[cNum, cBad]]

instance : IsTotal Course popularLe :=
  ⟨fun a b => Nat.le_total b.students a.students⟩

instance : IsTrans Course popularLe :=
  ⟨fun _ _ _ h1 h2 => le_trans h2 h1⟩

instance : IsTotal Course ratingLe :=
  ⟨fun a b => le_total b.rating a.rating⟩

instance : IsTrans Course ratingLe :=
  ⟨fun _ _ _ h1 h2 => le_trans h2 h1⟩

instance : IsTotal Course specPriceLowLe :=
  ⟨fun a b => le_total (specPriceVal a) (specPriceVal b)⟩

instance : IsTrans Course specPriceLowLe :=
  ⟨fun _ _ _ h1 h2 => le_trans h1 h2⟩

instance : IsTotal Course specPriceHighLe :=
  ⟨fun a b => le_total (specPriceVal b) (specPriceVal a)⟩

instance : IsTrans Course specPriceHighLe :=
  ⟨fun _ _ _ h1 h2 => le_trans h2 h1⟩

/-! ## Helper lemmas on stable sorting -/

theorem optLe_total (x y : Option ℚ) : optLe x y ∨ optLe y x := by
  match x, y with
  | some a, some b => exact le_total a b
  | some _, none => exact Or.inl trivial
  | none, some _ => exact Or.inl trivial
  | none, none => exact Or.inl trivial

theorem priceLowLe_total (a b : Course) : priceLowLe a b ∨ priceLowLe b a :=
  optLe_total (priceVal a) (priceVal b)

theorem priceHighLe_total (a b : Course) : priceHighLe a b ∨ priceHighLe b a :=
  optLe_total (priceVal b) (priceVal a)

theorem chain'_orderedInsert {α : Type} {r : α → α → Prop} [DecidableRel r]
    (tot : ∀ x y : α, r x y ∨ r y x) (a : α) :
    ∀ l : List α, List.Chain' r l → List.Chain' r (List.orderedInsert r a l)
  | [], _ => List.chain'_singleton a
  | b :: t, h => by
    by_cases hab : r a b
    · rw [List.orderedInsert_of_le r t hab]
      exact List.chain'_cons.mpr ⟨hab, h⟩
    · rw [List.orderedInsert, if_neg hab]
      match t with
      | [] =>
        simp only [List.orderedInsert]
        exact List.chain'_pair.mpr ((tot a b).resolve_left hab)
      | c :: t' =>
        have hc : List.Chain' r (c :: t') := (List.chain'_cons.mp h).2
        have hbc : r b c := (List.chain'_cons.mp h).1
        have ih := chain'_orderedInsert tot a (c :: t') hc
        by_cases hac : r a c
        · rw [List.orderedInsert_of_le r t' hac] at ih ⊢
          exact List.chain'_cons.mpr ⟨(tot a b).resolve_left hab, ih⟩
        · rw [List.orderedInsert, if_neg hac] at ih ⊢
          exact List.chain'_cons.mpr ⟨hbc, ih⟩

theorem chain'_insertionSort {α : Type} {r : α → α → Prop} [DecidableRel r]
    (tot : ∀ x y : α, r x y ∨ r y x) :
    ∀ l : List α, List.Chain' r (List.insertionSort r l)
  | [] => List.chain'_nil
  | a :: t => by
    rw [List.insertionSort]
    exact chain'_orderedInsert tot a _ (chain'_insertionSort tot t)

theorem insertionSort_eq_of_chain' {α : Type} {r : α → α → Prop} [DecidableRel r] :
    ∀ {l : List α}, List.Chain' r l → List.insertionSort r l = l
  | [], _ => rfl
  | [_], _ => rfl
  | a :: b :: t, h => by
    have hab : r a b := (List.chain'_cons.mp h).1
    have h2 : List.Chain' r (b :: t) := (List.chain'_cons.mp h).2
    rw [List.insertionSort, insertionSort_eq_of_chain' h2, List.orderedInsert_of_le r t hab]

theorem insertionSort_idem {α : Type} {r : α → α → Prop} [DecidableRel r]
    (tot : ∀ x y : α, r x y ∨ r y x) (l : List α) :
    List.insertionSort r (List.insertionSort r l) = List.insertionSort r l :=
  insertionSort_eq_of_chain' (chain'_insertionSort tot l)

theorem insertionSort_congr {α : Type} {r s : α → α → Prop}
    [DecidableRel r] [DecidableRel s] {l : List α}
    (h : ∀ a ∈ l, ∀ b ∈ l, r a b ↔ s a b) :
    List.insertionSort r l = List.insertionSort s l := by
  have hmap := List.map_insertionSort r s id l (by simpa using h)
  simpa using hmap

theorem specPriceVal_eq_of_priceVal {c : Course} {x : ℚ} (h : priceVal c = some x) :
    specPriceVal c = x := by
  unfold priceVal at h
  unfold specPriceVal
  by_cases hf : c.price = "Free"
  · rw [if_pos hf] at h
    rw [if_pos hf]
    exact Option.some_injective ℚ h
  · rw [if_neg hf] at h
    rw [if_neg hf, h]
    rfl

theorem priceLowLe_iff_spec {a b : Course}
    (ha : (priceVal a).isSome) (hb : (priceVal b).isSome) :
    priceLowLe a b ↔ specPriceLowLe a b := by
  rcases Option.isSome_iff_exists.mp ha with ⟨x, hx⟩
  rcases Option.isSome_iff_exists.mp hb with ⟨y, hy⟩
  unfold priceLowLe specPriceLowLe
  rw [hx, hy, specPriceVal_eq_of_priceVal hx, specPriceVal_eq_of_priceVal hy]
  exact Iff.rfl

theorem priceHighLe_iff_spec {a b : Course}
    (ha : (priceVal a).isSome) (hb : (priceVal b).isSome) :
    priceHighLe a b ↔ specPriceHighLe a b := by
  rcases Option.isSome_iff_exists.mp ha with ⟨x, hx⟩
  rcases Option.isSome_iff_exists.mp hb with ⟨y, hy⟩
  unfold priceHighLe specPriceHighLe
  rw [hx, hy, specPriceVal_eq_of_priceVal hx, specPriceVal_eq_of_priceVal hy]
  exact Iff.rfl

theorem sortCourses_perm (k : String) (l : List Course) :
    (sortCourses k l).Perm l := by
  unfold sortCourses
  split_ifs <;> first
    | exact List.perm_insertionSort _ _
    | exact List.Perm.refl _

theorem sortCourses_priceLow_eq_spec {l : List Course}
    (h : ∀ c ∈ l, (priceVal c).isSome) :
    l.insertionSort priceLowLe = l.insertionSort specPriceLowLe :=
  insertionSort_congr (fun a ha b hb => priceLowLe_iff_spec (h a ha) (h b hb))

theorem sortCourses_priceHigh_eq_spec {l : List Course}
    (h : ∀ c ∈ l, (priceVal c).isSome) :
    l.insertionSort priceHighLe = l.insertionSort specPriceHighLe :=
  insertionSort_congr (fun a ha b hb => priceHighLe_iff_spec (h a ha) (h b hb))

theorem mem_filterCourses {l : List Course} {q lang lvl : String} {c : Course} :
    c ∈ filterCourses l q lang lvl ↔
      c ∈ l ∧ (q ≠ "" → matchesQuery q c = true) ∧
      (lang ≠ "" ∧ lang ≠ "all" → jsToLower c.language = jsToLower lang) ∧
      (lvl ≠ "" ∧ lvl ≠ "all" → jsToLower c.level = jsToLower lvl) := by
  unfold filterCourses
  by_cases hq : q = "" <;> by_cases hla : lang = "" ∨ lang = "all" <;>
    by_cases hlv : lvl = "" ∨ lvl = "all" <;>
      simp [hq, hla, hlv, List.mem_filter, not_or, and_assoc, beq_iff_eq] <;>
      tauto

theorem filterCourses_eq_self {m : List Course} {q lang lvl : String}
    (hsub : ∀ c ∈ m, (q ≠ "" → matchesQuery q c = true) ∧
      (lang ≠ "" ∧ lang ≠ "all" → (jsToLower c.language == jsToLower lang) = true) ∧
      (lvl ≠ "" ∧ lvl ≠ "all" → (jsToLower c.level == jsToLower lvl) = true)) :
    filterCourses m q lang lvl = m := by
  have h1 : (if q = "" then m else m.filter (matchesQuery q)) = m := by
    by_cases hq : q = ""
    · rw [if_pos hq]
    · rw [if_neg hq]
      exact List.filter_eq_self.mpr (fun c hc => (hsub c hc).1 hq)
  have h2 : (if lang = "" ∨ lang = "all" then m
      else m.filter (fun c => jsToLower c.language == jsToLower lang)) = m := by
    by_cases hla : lang = "" ∨ lang = "all"
    · rw [if_pos hla]
    · rw [if_neg hla]
      exact List.filter_eq_self.mpr (fun c hc => (hsub c hc).2.1 (not_or.mp hla))
  have h3 : (if lvl = "" ∨ lvl = "all" then m
      else m.filter (fun c => jsToLower c.level == jsToLower lvl)) = m := by
    by_cases hlv : lvl = "" ∨ lvl = "all"
    · rw [if_pos hlv]
    · rw [if_neg hlv]
      exact List.filter_eq_self.mpr (fun c hc => (hsub c hc).2.2 (not_or.mp hlv))
  simp only [filterCourses]
  rw [h1, h2, h3]

theorem sortCourses_idem (k : String) (l : List Course) :
    sortCourses k (sortCourses k l) = sortCourses k l := by
  unfold sortCourses
  split_ifs <;> first
    | rfl
    | exact insertionSort_idem (fun a b => total_of popularLe a b) l
    | exact insertionSort_idem (fun a b => total_of ratingLe a b) l
    | exact insertionSort_idem priceLowLe_total l
    | exact insertionSort_idem priceHighLe_total l

theorem applyFilters_perm (l : List Course) (q lang lvl k : String) :
    (applyFilters l q lang lvl k).Perm (filterCourses l q lang lvl) :=
  sortCourses_perm k (filterCourses l q lang lvl)

theorem sorted_applyFilters_popular (l : List Course) (q lang lvl : String) :
    List.Sorted popularLe (applyFilters l q lang lvl "popular") := by
  unfold applyFilters sortCourses
  rw [if_pos rfl]
  exact List.sorted_insertionSort popularLe _

theorem sorted_applyFilters_rating (l : List Course) (q lang lvl : String) :
    List.Sorted ratingLe (applyFilters l q lang lvl "rating") := by
  unfold applyFilters sortCourses
  rw [if_neg (by decide), if_pos rfl]
  exact List.sorted_insertionSort ratingLe _

theorem applyFilters_newest (l : List Course) (q lang lvl : String) :
    applyFilters l q lang lvl "newest" = filterCourses l q lang lvl := by
  unfold applyFilters sortCourses
  rw [if_neg (by decide), if_neg (by decide), if_pos rfl]

theorem sorted_applyFilters_priceLow {l : List Course} {q lang lvl : String}
    (h : ∀ c ∈ filterCourses l q lang lvl, (priceVal c).isSome = true) :
    List.Sorted specPriceLowLe (applyFilters l q lang lvl "price-low") := by
  unfold applyFilters sortCourses
  rw [if_neg (by decide), if_neg (by decide), if_neg (by decide), if_pos rfl]
  rw [sortCourses_priceLow_eq_spec h]
  exact List.sorted_insertionSort specPriceLowLe _

theorem sorted_applyFilters_priceHigh {l : List Course} {q lang lvl : String}
    (h : ∀ c ∈ filterCourses l q lang lvl, (priceVal c).isSome = true) :
    List.Sorted specPriceHighLe (applyFilters l q lang lvl "price-high") := by
  unfold applyFilters sortCourses
  rw [if_neg (by decide), if_neg (by decide), if_neg (by decide), if_neg (by decide),
    if_pos rfl]
  rw [sortCourses_priceHigh_eq_spec h]
  exact List.sorted_insertionSort specPriceHighLe _

theorem stable_applyFilters_popular (l : List Course) (q lang lvl : String)
    {c : List Course} (hp : c.Pairwise popularLe)
    (hs : List.Sublist c (filterCourses l q lang lvl)) :
    List.Sublist c (applyFilters l q lang lvl "popular") := by
  unfold applyFilters sortCourses
  rw [if_pos rfl]
  exact List.sublist_insertionSort hp hs

theorem stable_applyFilters_rating (l : List Course) (q lang lvl : String)
    {c : List Course} (hp : c.Pairwise ratingLe)
    (hs : List.Sublist c (filterCourses l q lang lvl)) :
    List.Sublist c (applyFilters l q lang lvl "rating") := by
  unfold applyFilters sortCourses
  rw [if_neg (by decide), if_pos rfl]
  exact List.sublist_insertionSort hp hs

theorem stable_applyFilters_priceLow (l : List Course) (q lang lvl : String)
    {c : List Course} (hp : c.Pairwise priceLowLe)
    (hs : List.Sublist c (filterCourses l q lang lvl)) :
    List.Sublist c (applyFilters l q lang lvl "price-low") := by
  unfold applyFilters sortCourses
  rw [if_neg (by decide), if_neg (by decide), if_neg (by decide), if_pos rfl]
  exact List.sublist_insertionSort hp hs

theorem stable_applyFilters_priceHigh (l : List Course) (q lang lvl : String)
    {c : List Course} (hp : c.Pairwise priceHighLe)
    (hs : List.Sublist c (filterCourses l q lang lvl)) :
    List.Sublist c (applyFilters l q lang lvl "price-high") := by
  unfold applyFilters sortCourses
  rw [if_neg (by decide), if_neg (by decide), if_neg (by decide), if_neg (by decide),
    if_pos rfl]
  exact List.sublist_insertionSort hp hs

/-! ## Claims about the filter/sort pipeline -/

/-- C1 counterexample: with the catalog `[cNum, cBad]` (prices `"₦100"` and
the malformed `"N/A"`) and sort key `price-low`, the pipeline returns the
list unchanged, which is not ascending in the parsed price (the spec's
parse sends the malformed string to 0 while `"₦100"` parses to 100): the
comparator's `NaN` is treated as a tie, so the claimed ordering relation
fails on malformed prices. -/
theorem C1_price_order_counterexample :
    applyFilters [cNum, cBad] "" "" "" "price-low" = [cNum, cBad] ∧
    specPriceVal cNum = 100 ∧ specPriceVal cBad = 0 ∧
    ¬ List.Sorted specPriceLowLe (applyFilters [cNum, cBad] "" "" "" "price-low") := by
  refine ⟨by decide, by decide, by decide, by decide⟩

/-- C1 (amended): for every course list and sort key the pipeline's output
is a permutation of its filtered input; `popular` and `rating` sort
descending, `newest` preserves the filtered input order, and
`price-low`/`price-high` sort ascending/descending by the parsed price
provided every filtered course's price parses ("Free" or a well-formed
number) — with a malformed price the comparator returns `NaN`, which ties,
and the price ordering can fail (see the counterexample).  All four
comparators are total and sorting is stable (a sorted-compatible sublist
of the input survives as a sublist of the output). -/
theorem C1_pipeline_order :
    (∀ (l : List Course) (q lang lvl k : String),
        (applyFilters l q lang lvl k).Perm (filterCourses l q lang lvl)) ∧
    (∀ (l : List Course) (q lang lvl : String),
        List.Sorted popularLe (applyFilters l q lang lvl "popular")) ∧
    (∀ (l : List Course) (q lang lvl : String),
        List.Sorted ratingLe (applyFilters l q lang lvl "rating")) ∧
    (∀ (l : List Course) (q lang lvl : String),
        applyFilters l q lang lvl "newest" = filterCourses l q lang lvl) ∧
    (∀ (l : List Course) (q lang lvl : String),
        (∀ c ∈ filterCourses l q lang lvl, (priceVal c).isSome = true) →
        List.Sorted specPriceLowLe (applyFilters l q lang lvl "price-low")) ∧
    (∀ (l : List Course) (q lang lvl : String),
        (∀ c ∈ filterCourses l q lang lvl, (priceVal c).isSome = true) →
        List.Sorted specPriceHighLe (applyFilters l q lang lvl "price-high")) ∧
    (∀ a b : Course, (popularLe a b ∨ popularLe b a) ∧ (ratingLe a b ∨ ratingLe b a) ∧
        (priceLowLe a b ∨ priceLowLe b a) ∧ (priceHighLe a b ∨ priceHighLe b a)) ∧
    (∀ (l : List Course) (q lang lvl : String) (c : List Course),
        (c.Pairwise popularLe → List.Sublist c (filterCourses l q lang lvl) →
          List.Sublist c (applyFilters l q lang lvl "popular")) ∧
        (c.Pairwise ratingLe → List.Sublist c (filterCourses l q lang lvl) →
          List.Sublist c (applyFilters l q lang lvl "rating")) ∧
        (c.Pairwise priceLowLe → List.Sublist c (filterCourses l q lang lvl) →
          List.Sublist c (applyFilters l q lang lvl "price-low")) ∧
        (c.Pairwise priceHighLe → List.Sublist c (filterCourses l q lang lvl) →
          List.Sublist c (applyFilters l q lang lvl "price-high"))) := by
  refine ⟨applyFilters_perm, sorted_applyFilters_popular, sorted_applyFilters_rating,
    applyFilters_newest,
    fun l q lang lvl h => sorted_applyFilters_priceLow h,
    fun l q lang lvl h => sorted_applyFilters_priceHigh h,
    fun a b => ⟨total_of popularLe a b, total_of ratingLe a b,
      priceLowLe_total a b, priceHighLe_total a b⟩,
    fun l q lang lvl c => ⟨stable_applyFilters_popular l q lang lvl,
      stable_applyFilters_rating l q lang lvl,
      stable_applyFilters_priceLow l q lang lvl,
      stable_applyFilters_priceHigh l q lang lvl⟩⟩

/-- C1 witness: at the two-course catalog `[cNum, cFree]` every price
parses, so the `price-low` output is sorted by parsed price. -/
theorem C1_pipeline_order_witness :
    (∀ c ∈ filterCourses [cNum, cFree] "" "" "", (priceVal c).isSome = true) ∧
    List.Sorted specPriceLowLe (applyFilters [cNum, cFree] "" "" "" "price-low") := by
  have h : ∀ c ∈ filterCourses [cNum, cFree] "" "" "", (priceVal c).isSome = true := by decide
  exact ⟨h, C1_pipeline_order.2.2.2.2.1 [cNum, cFree] "" "" "" h⟩

/-- C2 counterexample: the claim says a malformed price string degrades to
0; on the catalog `[cNum, cBad]` the code's pipeline (where the malformed
price compares as `NaN`, a tie) returns a different `price-low` order than
the degrade-to-0 semantics the spec describes. -/
theorem C2_malformed_price_counterexample :
    applyFilters [cNum, cBad] "" "" "" "price-low" = [cNum, cBad] ∧
    specApplyFilters [cNum, cBad] "" "" "" "price-low" = [cBad, cNum] ∧
    applyFilters [cNum, cBad] "" "" "" "price-low" ≠
      specApplyFilters [cNum, cBad] "" "" "" "price-low" := by
  refine ⟨by decide, by decide, by decide⟩

/-- C2 (amended): `"Free"` parses to 0 and the naira sign and comma
separators are stripped before `parseFloat`, exactly as claimed; but a
malformed price string does not degrade to 0 — it makes every comparison
against that course a tie (`NaN` coerced to `+0`), leaving relative order
unchanged.  The pipeline still has no failure: for every input and sort
key the output is a permutation of the filtered input. -/
theorem C2_price_parse_degradation :
    (∀ c : Course, c.price = "Free" → priceVal c = some 0) ∧
    (∀ c : Course, c.price ≠ "Free" → priceVal c = jsParseFloat (stripNaira c.price)) ∧
    (∀ a b : Course, priceVal a = none ∨ priceVal b = none →
        priceLowLe a b ∧ priceLowLe b a ∧ priceHighLe a b ∧ priceHighLe b a) ∧
    (∀ (l : List Course) (q lang lvl k : String),
        (applyFilters l q lang lvl k).Perm (filterCourses l q lang lvl)) := by
  refine ⟨fun c h => by simp [priceVal, h], fun c h => by simp [priceVal, h], ?_,
    applyFilters_perm⟩
  intro a b h
  rcases h with h | h <;> simp [priceLowLe, priceHighLe, optLe, h]

/-- C2 witness: the free course's price parses to 0, and the malformed
course ties with the priced course in both directions. -/
theorem C2_price_parse_degradation_witness :
    priceVal cFree = some 0 ∧
    (priceLowLe cBad cNum ∧ priceLowLe cNum cBad ∧
      priceHighLe cBad cNum ∧ priceHighLe cNum cBad) := by
  refine ⟨C2_price_parse_degradation.1 cFree (by decide), ?_⟩
  have h := C2_price_parse_degradation.2.2.1 cBad cNum (Or.inl (by decide))
  exact ⟨h.1, h.2.1, h.2.2.2, h.2.2.1⟩

/-- C3: a course is in the filtered output exactly when it is in the
catalog, matches the (non-empty) query case-insensitively on title,
instructor or language, and passes the language and level equality
filters whenever a value other than `''`/`'all'` is set; and on the
concrete catalog `[cNum, cBad]` (languages Yoruba and Igbo, neither
otherwise matching) the query `"yoruba"` keeps only the Yoruba course. -/
theorem C3_filter_membership :
    (∀ (l : List Course) (q lang lvl : String) (c : Course),
        c ∈ filterCourses l q lang lvl ↔
          c ∈ l ∧ (q ≠ "" → matchesQuery q c = true) ∧
          (lang ≠ "" ∧ lang ≠ "all" → jsToLower c.language = jsToLower lang) ∧
          (lvl ≠ "" ∧ lvl ≠ "all" → jsToLower c.level = jsToLower lvl)) ∧
    filterCourses [cNum, cBad] "yoruba" "" "" = [cNum] := by
  exact ⟨fun l q lang lvl c => mem_filterCourses, by decide⟩

/-- C3 witness: the membership characterization instantiated at the
Yoruba course of the concrete scenario. -/
theorem C3_filter_membership_witness :
    cNum ∈ filterCourses [cNum, cBad] "yoruba" "" "" ↔
      cNum ∈ [cNum, cBad] ∧ ("yoruba" ≠ "" → matchesQuery "yoruba" cNum = true) ∧
      ("" ≠ "" ∧ "" ≠ "all" → jsToLower cNum.language = jsToLower "") ∧
      ("" ≠ "" ∧ "" ≠ "all" → jsToLower cNum.level = jsToLower "") :=
  C3_filter_membership.1 [cNum, cBad] "yoruba" "" "" cNum

/-- C7: the pipeline is idempotent — applying the filter/sort pipeline to
its own output with the same query, language, level and sort key yields
the same list as applying it once (for every sort key, including the
price keys on arbitrary, even malformed, prices). -/
theorem C7_filter_idempotent :
    ∀ (l : List Course) (q lang lvl k : String),
      applyFilters (applyFilters l q lang lvl k) q lang lvl k =
        applyFilters l q lang lvl k := by
  intro l q lang lvl k
  unfold applyFilters
  have hf : filterCourses (sortCourses k (filterCourses l q lang lvl)) q lang lvl
      = sortCourses k (filterCourses l q lang lvl) := by
    apply filterCourses_eq_self
    intro c hc
    have hmem : c ∈ filterCourses l q lang lvl :=
      ((sortCourses_perm k _).mem_iff).mp hc
    have hm := mem_filterCourses.mp hmem
    exact ⟨hm.2.1, fun h => beq_iff_eq.mpr (hm.2.2.1 h),
      fun h => beq_iff_eq.mpr (hm.2.2.2 h)⟩
  rw [hf, sortCourses_idem]

/-! ## Claims about the upload validator -/

theorem validateFile_eq_none_iff (cfg : UploadConfig) (f : FileRec) :
    validateFile cfg f = none ↔ fileAcceptable cfg f := by
  unfold validateFile fileAcceptable
  by_cases hs : f.size > cfg.maxSize * 1024 * 1024
  · rw [if_pos hs]
    simp only [reduceCtorEq, false_iff, not_and]
    intro hle
    omega
  · rw [if_neg hs]
    have hsle : f.size ≤ cfg.maxSize * 1024 * 1024 := Nat.le_of_not_lt hs
    by_cases ha : cfg.accept = "*/*"
    · simp [ha, hsle]
    · rw [if_pos ha]
      by_cases hany : ((jsSplit cfg.accept ',').map jsTrim).any
          (fun t => t == f.mime || t == fileExtension f.name || t == "*/*") = true
      · rw [if_pos hany]
        simp only [List.any_eq_true, Bool.or_eq_true, beq_iff_eq] at hany
        simp only [true_iff]
        refine ⟨hsle, Or.inr ?_⟩
        obtain ⟨t, ht, h⟩ := hany
        exact ⟨t, ht, or_assoc.mp h⟩
      · rw [if_neg hany]
        simp only [List.any_eq_true, Bool.or_eq_true, beq_iff_eq] at hany
        push_neg at hany
        simp only [reduceCtorEq, false_iff, not_and]
        intro _
        rintro (h | ⟨t, ht, h⟩)
        · exact ha h
        · rcases h with h | h | h
          · exact (hany t ht).1.1 h
          · exact (hany t ht).1.2 h
          · exact (hany t ht).2 h

/-- C5: a file that exceeds the size limit or whose extension/MIME type is
not in the configured accepted set is rejected before any transfer: the
tracked-uploads list is returned unchanged, no transfer starts, and a
rejection reason is reported; conversely an acceptable file is not
rejected. -/
theorem C5_upload_validation :
    (∀ (cfg : UploadConfig) (f : FileRec) (tracked : List UploadingFile),
        ¬ fileAcceptable cfg f →
        (uploadFileStart cfg f tracked).tracked = tracked ∧
        (uploadFileStart cfg f tracked).started = false ∧
        ∃ r, (uploadFileStart cfg f tracked).rejection = some r) ∧
    (∀ (cfg : UploadConfig) (f : FileRec) (tracked : List UploadingFile),
        fileAcceptable cfg f →
        (uploadFileStart cfg f tracked).rejection = none ∧
        (uploadFileStart cfg f tracked).started = true) := by
  constructor
  · intro cfg f tracked h
    have hv : validateFile cfg f ≠ none :=
      fun he => h ((validateFile_eq_none_iff cfg f).mp he)
    rcases hr : validateFile cfg f with _ | r
    · exact absurd hr hv
    · unfold uploadFileStart
      rw [hr]
      exact ⟨rfl, rfl, r, rfl⟩
  · intro cfg f tracked h
    have hv : validateFile cfg f = none := (validateFile_eq_none_iff cfg f).mpr h
    unfold uploadFileStart
    rw [hv]
    exact ⟨rfl, rfl⟩

/-- C5 witness: a 150MB file under the default 100MB limit is rejected and
the (empty) tracker list is unchanged, with no transfer started. -/
theorem C5_upload_validation_witness :
    ¬ fileAcceptable cfg100 bigFile ∧
    (uploadFileStart cfg100 bigFile []).tracked = [] ∧
    (uploadFileStart cfg100 bigFile []).started = false ∧
    ∃ r, (uploadFileStart cfg100 bigFile []).rejection = some r := by
  have h : ¬ fileAcceptable cfg100 bigFile := by
    intro hacc
    have := hacc.1
    norm_num [cfg100, bigFile] at this
  have hc := C5_upload_validation.1 cfg100 bigFile [] h
  exact ⟨h, hc.1, hc.2.1, hc.2.2⟩

/-! ## Claims about the quiz draft validation -/

/-- C6: quiz submission is blocked locally with a validation message —
and no create-or-update request happens — whenever the question list is
empty or some question has an empty prompt or an empty option string;
when the code's validation passes (no question with a
whitespace-or-empty prompt or option), exactly one create-or-update
request is issued. -/
theorem C6_quiz_validation :
    (∀ (qs : List Question) (editing : Bool),
        (qs = [] ∨ ∃ q ∈ qs, q.question = "" ∨ "" ∈ q.options) →
        ∃ m, quizHandleSubmit qs editing = .blocked m) ∧
    (∀ (qs : List Question) (editing : Bool),
        qs ≠ [] →
        (∀ q ∈ qs, jsTrim q.question ≠ "" ∧ ∀ o ∈ q.options, jsTrim o ≠ "") →
        quizHandleSubmit qs editing = .request editing) := by
  constructor
  · intro qs editing h
    unfold quizHandleSubmit
    rcases h with h | ⟨q, hq, hbad⟩
    · rw [if_pos (by simp [h])]
      exact ⟨"Please add at least one question", rfl⟩
    · have hlen : ¬ qs.length = 0 := by
        intro h0
        rw [List.length_eq_zero.mp h0] at hq
        exact absurd hq (List.not_mem_nil q)
      rw [if_neg hlen]
      have hqbad : (jsTrim q.question == "" || q.options.any (fun o => jsTrim o == "")) = true := by
        rcases hbad with hbad | hbad
        · rw [hbad, Bool.or_eq_true]
          exact Or.inl (by decide)
        · rw [Bool.or_eq_true]
          exact Or.inr (List.any_eq_true.mpr ⟨"", hbad, by decide⟩)
      have hmem : q ∈ qs.filter (fun q =>
          jsTrim q.question == "" || q.options.any (fun o => jsTrim o == "")) :=
        List.mem_filter.mpr ⟨hq, hqbad⟩
      rw [if_pos (List.length_pos.mpr (List.ne_nil_of_mem hmem))]
      exact ⟨"Please fill in all question fields", rfl⟩
  · intro qs editing hne hok
    unfold quizHandleSubmit
    rw [if_neg (fun h0 => hne (List.length_eq_zero.mp h0))]
    have hfil : qs.filter (fun q =>
        jsTrim q.question == "" || q.options.any (fun o => jsTrim o == "")) = [] := by
      rw [List.filter_eq_nil_iff]
      intro q hq
      have := hok q hq
      simp only [Bool.or_eq_true, beq_iff_eq, List.any_eq_true, not_or]
      exact ⟨this.1, by
        rintro ⟨o, ho, heq⟩
        exact (this.2 o ho) heq⟩
    rw [hfil]
    simp

/-- C6 witness: a draft with one question having an empty option string is
blocked locally with a validation message. -/
theorem C6_quiz_validation_witness :
    ∃ m, quizHandleSubmit [qEmptyOption] false = .blocked m :=
  C6_quiz_validation.1 [qEmptyOption] false
    (Or.inr ⟨qEmptyOption, by decide, Or.inr (by decide)⟩)

/-! ## Claims about enrollment -/

theorem insertEnrollment_of_no_row {db : List Enrollment} {row : Enrollment}
    (h : ∀ e ∈ db, ¬(e.courseId = row.courseId ∧ e.studentId = row.studentId)) :
    insertEnrollment db row = (db ++ [row], none) := by
  unfold insertEnrollment
  rw [if_neg]
  simp only [List.any_eq_true, Bool.and_eq_true, beq_iff_eq, not_exists]
  rintro e ⟨he, hc, hs⟩
  exact h e he ⟨hc, hs⟩

theorem insertEnrollment_of_row {db : List Enrollment} {row : Enrollment}
    (h : ∃ e ∈ db, e.courseId = row.courseId ∧ e.studentId = row.studentId) :
    insertEnrollment db row = (db, some "23505") := by
  unfold insertEnrollment
  rw [if_pos]
  simp only [List.any_eq_true, Bool.and_eq_true, beq_iff_eq]
  obtain ⟨e, he, hc, hs⟩ := h
  exact ⟨e, he, hc, hs⟩

theorem handleEnroll_success {v : Viewer} {cid : Nat} {db : List Enrollment}
    (hs : v.signedIn = true) (hr : v.role = "student")
    (hno : ∀ e ∈ db, ¬(e.courseId = cid ∧ e.studentId = v.id)) :
    handleEnroll v cid true db = (db ++ [⟨cid, v.id, 0⟩], .enrolled) := by
  unfold handleEnroll
  rw [hs, hr]
  simp only [Bool.not_true, Bool.false_eq_true, if_false, ne_eq, not_true_eq_false,
    if_false]
  rw [insertEnrollment_of_no_row hno]

theorem handleEnroll_conflict {v : Viewer} {cid : Nat} {db : List Enrollment}
    (hs : v.signedIn = true) (hr : v.role = "student")
    (hrow : ∃ e ∈ db, e.courseId = cid ∧ e.studentId = v.id) :
    handleEnroll v cid true db = (db, .alreadyEnrolled) := by
  unfold handleEnroll
  rw [hs, hr]
  simp only [Bool.not_true, Bool.false_eq_true, if_false, ne_eq, not_true_eq_false,
    if_false]
  rw [insertEnrollment_of_row hrow]
  simp

theorem detailHandleEnroll_success {v : Viewer} {cid : Nat} (pub : Bool)
    {db : List Enrollment}
    (hs : v.signedIn = true) (hr : v.role = "student")
    (hno : ∀ e ∈ db, ¬(e.courseId = cid ∧ e.studentId = v.id)) :
    detailHandleEnroll v cid pub db = (db ++ [⟨cid, v.id, 0⟩], .enrolled) := by
  unfold detailHandleEnroll
  rw [hs, hr]
  simp only [Bool.not_true, Bool.false_eq_true, if_false, ne_eq, not_true_eq_false,
    if_false]
  rw [insertEnrollment_of_no_row hno]

theorem detailHandleEnroll_conflict {v : Viewer} {cid : Nat} (pub : Bool)
    {db : List Enrollment}
    (hs : v.signedIn = true) (hr : v.role = "student")
    (hrow : ∃ e ∈ db, e.courseId = cid ∧ e.studentId = v.id) :
    detailHandleEnroll v cid pub db = (db, .genericFailure) := by
  unfold detailHandleEnroll
  rw [hs, hr]
  simp only [Bool.not_true, Bool.false_eq_true, if_false, ne_eq, not_true_eq_false,
    if_false]
  rw [insertEnrollment_of_row hrow]

theorem countEnroll_append_one {db : List Enrollment} {cid sid : Nat}
    (hno : ∀ e ∈ db, ¬(e.courseId = cid ∧ e.studentId = sid)) :
    countEnroll (db ++ [⟨cid, sid, 0⟩]) cid sid = 1 := by
  unfold countEnroll
  rw [List.countP_append]
  have h0 : db.countP (fun e => e.courseId == cid && e.studentId == sid) = 0 := by
    rw [List.countP_eq_zero]
    intro e he
    simp only [Bool.and_eq_true, beq_iff_eq, not_and]
    intro hc hs
    exact hno e he ⟨hc, hs⟩
  rw [h0]
  simp [List.countP_cons]

/-- C4 counterexample: through the `CourseDetail` page's own enroll
handler, a signed-in student enrolls in an *unpublished* course — an
enrollment row is created although the course is not published — and a
duplicate attempt there surfaces the generic failure toast, not the
"already enrolled" conflict. -/
theorem C4_detail_enroll_counterexample :
    (detailHandleEnroll vStudent 3 false []).1 = [⟨3, 7, 0⟩] ∧
    (detailHandleEnroll vStudent 3 false []).2 = .enrolled ∧
    (detailHandleEnroll vStudent 3 false (detailHandleEnroll vStudent 3 false []).1).2 =
      .genericFailure ∧
    EnrollOutcome.genericFailure ≠ EnrollOutcome.alreadyEnrolled := by
  refine ⟨by decide, by decide, by decide, by decide⟩

/-- C4 (amended): the `EnrollmentButton` enroll action behaves exactly as
claimed — it creates a row (with progress 0) only when the viewer is a
signed-in student, the course is published and no row exists, and a second
attempt conflicts with "already enrolled" leaving exactly one row.  The
`CourseDetail` page's enroll handler shares the exactly-once guarantee
(enforced by the table's unique constraint) but does not check the
published flag and reports a duplicate with a generic failure instead. -/
theorem C4_enroll_exactly_once :
    (∀ (v : Viewer) (cid : Nat) (pub : Bool) (db : List Enrollment),
        (handleEnroll v cid pub db).1 ≠ db →
        v.signedIn = true ∧ v.role = "student" ∧ pub = true ∧
        (∀ e ∈ db, ¬(e.courseId = cid ∧ e.studentId = v.id)) ∧
        (handleEnroll v cid pub db).1 = db ++ [⟨cid, v.id, 0⟩]) ∧
    (∀ (v : Viewer) (cid : Nat) (db : List Enrollment),
        v.signedIn = true → v.role = "student" →
        (∀ e ∈ db, ¬(e.courseId = cid ∧ e.studentId = v.id)) →
        (handleEnroll v cid true db).2 = .enrolled ∧
        (handleEnroll v cid true (handleEnroll v cid true db).1).2 = .alreadyEnrolled ∧
        (handleEnroll v cid true (handleEnroll v cid true db).1).1 =
          (handleEnroll v cid true db).1 ∧
        countEnroll (handleEnroll v cid true (handleEnroll v cid true db).1).1 cid v.id = 1) ∧
    (∀ (v : Viewer) (cid : Nat) (pub : Bool) (db : List Enrollment),
        v.signedIn = true → v.role = "student" →
        (∀ e ∈ db, ¬(e.courseId = cid ∧ e.studentId = v.id)) →
        (detailHandleEnroll v cid pub db).1 = db ++ [⟨cid, v.id, 0⟩] ∧
        (detailHandleEnroll v cid pub (detailHandleEnroll v cid pub db).1).2 =
          .genericFailure ∧
        countEnroll (detailHandleEnroll v cid pub (detailHandleEnroll v cid pub db).1).1
          cid v.id = 1) := by
  have hmem : ∀ (db : List Enrollment) (cid sid : Nat) (p : Nat),
      ∃ e ∈ db ++ [(⟨cid, sid, p⟩ : Enrollment)], e.courseId = cid ∧ e.studentId = sid :=
    fun db cid sid p => ⟨⟨cid, sid, p⟩, List.mem_append_right db (List.mem_singleton.mpr rfl),
      rfl, rfl⟩
  refine ⟨?_, ?_, ?_⟩
  · intro v cid pub db hne
    by_cases hs : v.signedIn = true
    case neg =>
      exfalso
      apply hne
      unfold handleEnroll
      rw [Bool.not_eq_true] at hs
      rw [hs]
      rfl
    by_cases hr : v.role = "student"
    case neg =>
      exfalso
      apply hne
      unfold handleEnroll
      rw [hs]
      simp [hr]
    by_cases hp : pub = true
    case neg =>
      exfalso
      apply hne
      unfold handleEnroll
      rw [Bool.not_eq_true] at hp
      rw [hs, hr, hp]
      simp
    by_cases hno : ∀ e ∈ db, ¬(e.courseId = cid ∧ e.studentId = v.id)
    case neg =>
      exfalso
      apply hne
      push_neg at hno
      obtain ⟨e, he, hc, hsid⟩ := hno
      rw [hp, handleEnroll_conflict hs hr ⟨e, he, hc, hsid⟩]
    refine ⟨hs, hr, hp, hno, ?_⟩
    rw [hp, handleEnroll_success hs hr hno]
  · intro v cid db hs hr hno
    have h1 := handleEnroll_success hs hr hno
    have h2 := handleEnroll_conflict hs hr (hmem db cid v.id 0)
    refine ⟨?_, ?_, ?_, ?_⟩ <;> simp only [h1, h2]
    exact countEnroll_append_one hno
  · intro v cid pub db hs hr hno
    have h1 := detailHandleEnroll_success pub hs hr hno
    have h2 := detailHandleEnroll_conflict pub hs hr (hmem db cid v.id 0)
    refine ⟨?_, ?_, ?_⟩ <;> simp only [h1, h2]
    exact countEnroll_append_one hno

/-- C4 witness: the exactly-once behavior at a concrete student and empty
table: first attempt enrolled, second conflicts, one row remains. -/
theorem C4_enroll_exactly_once_witness :
    (handleEnroll vStudent 5 true []).2 = .enrolled ∧
    (handleEnroll vStudent 5 true (handleEnroll vStudent 5 true []).1).2 = .alreadyEnrolled ∧
    (handleEnroll vStudent 5 true (handleEnroll vStudent 5 true []).1).1 =
      (handleEnroll vStudent 5 true []).1 ∧
    countEnroll (handleEnroll vStudent 5 true (handleEnroll vStudent 5 true []).1).1
      5 vStudent.id = 1 :=
  C4_enroll_exactly_once.2.1 vStudent 5 [] rfl rfl (by decide)

/-! ## Claims about lesson management -/

theorem createLesson_contiguous (ls : List Lesson) (l : Lesson)
    (h : contiguousIndexes ls) : contiguousIndexes (createLesson ls l) := by
  unfold contiguousIndexes createLesson at *
  simp only [List.map_append, List.map_cons, List.map_nil, List.length_append,
    List.length_cons, List.length_nil]
  rw [List.range_succ]
  exact h.append_right _

theorem editLesson_map_order (ls : List Lesson) (i : Nat) (l : Lesson) :
    (editLesson ls i l).map Lesson.order_index = ls.map Lesson.order_index := by
  unfold editLesson
  rw [List.map_map]
  apply List.map_congr_left
  intro e _
  by_cases h : e.id == i <;> simp [Function.comp, h]

theorem editLesson_contiguous (ls : List Lesson) (i : Nat) (l : Lesson)
    (h : contiguousIndexes ls) : contiguousIndexes (editLesson ls i l) := by
  unfold contiguousIndexes at *
  rw [editLesson_map_order]
  have hlen : (editLesson ls i l).length = ls.length := by
    unfold editLesson
    rw [List.length_map]
  rw [hlen]
  exact h

theorem reorderLessons_contiguous (ls : List Lesson) :
    contiguousIndexes (reorderLessons ls) := by
  unfold contiguousIndexes reorderLessons
  have hmap : (ls.mapIdx (fun i l => { l with order_index := i })).map Lesson.order_index
      = List.range ls.length := by
    rw [List.mapIdx_eq_enum_map, List.map_map]
    have hfun : (Lesson.order_index ∘
        Function.uncurry (fun (i : Nat) (l : Lesson) => { l with order_index := i }))
        = Prod.fst := by
      funext p
      cases p
      rfl
    rw [hfun, List.enum_map_fst]
  rw [hmap, List.length_mapIdx]

theorem deleteLesson_nodup (ls : List Lesson) (lid : Nat)
    (h : contiguousIndexes ls) :
    ((deleteLesson ls lid).map Lesson.order_index).Nodup := by
  have hnd : (ls.map Lesson.order_index).Nodup :=
    h.nodup_iff.mpr (List.nodup_range _)
  exact hnd.sublist (List.Sublist.map _ (List.filter_sublist ls))

/-- C8 counterexample: from the contiguous lessons `[0, 1, 2]`, deleting
the middle lesson leaves indexes `[0, 2]` — unique but no longer
contiguous: `handleDelete` never renumbers the remaining rows, so the
claimed invariant fails after a delete. -/
theorem C8_delete_counterexample :
    contiguousIndexes lessons012 ∧
    deleteLesson lessons012 2 = [⟨1, "intro", "video", 0⟩, ⟨3, "end", "video", 2⟩] ∧
    ¬ contiguousIndexes (deleteLesson lessons012 2) := by
  refine ⟨by decide, by decide, by decide⟩

/-- C8 (amended): creating a lesson appends it with index equal to the
current count and preserves the unique-and-contiguous invariant; editing
preserves every index (hence the invariant); reordering re-establishes the
invariant from any state; deleting preserves uniqueness of the remaining
indexes but does not renumber them, so contiguity can be lost (see the
counterexample). -/
theorem C8_order_index_invariant :
    (∀ (ls : List Lesson) (l : Lesson), contiguousIndexes ls →
        contiguousIndexes (createLesson ls l)) ∧
    (∀ (ls : List Lesson) (i : Nat) (l : Lesson),
        (editLesson ls i l).map Lesson.order_index = ls.map Lesson.order_index ∧
        (contiguousIndexes ls → contiguousIndexes (editLesson ls i l))) ∧
    (∀ ls : List Lesson, contiguousIndexes (reorderLessons ls)) ∧
    (∀ (ls : List Lesson) (lid : Nat), contiguousIndexes ls →
        ((deleteLesson ls lid).map Lesson.order_index).Nodup) :=
  ⟨createLesson_contiguous,
    fun ls i l => ⟨editLesson_map_order ls i l, editLesson_contiguous ls i l⟩,
    reorderLessons_contiguous,
    deleteLesson_nodup⟩

/-- C8 witness: creating a fourth lesson over the contiguous three-lesson
state yields a contiguous four-lesson state. -/
theorem C8_order_index_invariant_witness :
    contiguousIndexes (createLesson lessons012 ⟨4, "quiz time", "quiz", 99⟩) :=
  C8_order_index_invariant.1 lessons012 ⟨4, "quiz time", "quiz", 99⟩ (by decide)

/-! ## Claim about the realtime notification handler -/

/-- C9: the subscription handler is not idempotent — delivering the same
INSERT event twice prepends the payload twice and counts it twice,
unlike the single delivery (the code has no deduplication, contradicting
the spec's requirement that handlers be idempotent against duplicate
delivery). -/
theorem C9_duplicate_delivery_not_idempotent :
    handleNotificationInsert notifNew (handleNotificationInsert notifNew ⟨[], 0⟩) ≠
      handleNotificationInsert notifNew ⟨[], 0⟩ ∧
    (handleNotificationInsert notifNew
      (handleNotificationInsert notifNew ⟨[], 0⟩)).notifications.length = 2 ∧
    (handleNotificationInsert notifNew ⟨[], 0⟩).notifications.length = 1 ∧
    (handleNotificationInsert notifNew
      (handleNotificationInsert notifNew ⟨[], 0⟩)).unreadCount = 2 ∧
    (handleNotificationInsert notifNew ⟨[], 0⟩).unreadCount = 1 := by
  refine ⟨by decide, by decide, by decide, by decide, by decide⟩

/-! ## Claim about non-mutation of the input array -/

theorem getArr_append_of_lt {h : CourseHeap} {r : Nat} (hr : r < h.length)
    (c : List Course) : getArr (h ++ [c]) r = getArr h r := by
  unfold getArr
  rw [List.getD_eq_getElem?_getD, List.getD_eq_getElem?_getD,
    List.getElem?_append_left hr]

theorem getArr_append_self (h : CourseHeap) (c : List Course) :
    getArr (h ++ [c]) h.length = c := by
  unfold getArr
  rw [List.getD_eq_getElem?_getD, List.getElem?_append_right (le_refl _)]
  simp

theorem getArr_set_self {h : CourseHeap} {r : Nat} (hr : r < h.length)
    (c : List Course) : getArr (setArr h r c) r = c := by
  unfold getArr setArr
  rw [List.getD_eq_getElem?_getD, List.getElem?_set_self (by simpa using hr)]
  rfl

theorem getArr_set_ne {h : CourseHeap} {r rr : Nat} (hne : rr ≠ r)
    (c : List Course) : getArr (setArr h rr c) r = getArr h r := by
  unfold getArr setArr
  rw [List.getD_eq_getElem?_getD, List.getD_eq_getElem?_getD, List.getElem?_set_ne hne]

theorem heapInv_init {h : CourseHeap} {r : Nat} (hr : r < h.length) :
    HeapInv h r (allocArr h (getArr h r)) (getArr h r) := by
  unfold HeapInv allocArr
  refine ⟨by simp, by simp, getArr_append_of_lt hr _, getArr_append_self h _⟩

theorem heapInv_step {orig : CourseHeap} {r : Nat} {a : CourseHeap × Nat}
    {cur : List Course} (hr : r < orig.length) (inv : HeapInv orig r a cur)
    (cond : Prop) [Decidable cond] (p : Course → Bool) :
    HeapInv orig r (if cond then a else allocArr a.1 ((getArr a.1 a.2).filter p))
      (if cond then cur else cur.filter p) := by
  by_cases hc : cond
  · rw [if_pos hc, if_pos hc]
    exact inv
  · rw [if_neg hc, if_neg hc]
    obtain ⟨h1, h2, h3, h4⟩ := inv
    have hrlt : r < a.1.length := lt_of_lt_of_le hr (le_trans h2 (le_of_lt h1))
    unfold HeapInv allocArr
    refine ⟨by simp, le_trans h2 (le_of_lt h1), ?_, ?_⟩
    · rw [getArr_append_of_lt hrlt]
      exact h3
    · rw [getArr_append_self, h4]

theorem heapInv_final {orig : CourseHeap} {r : Nat} {a : CourseHeap × Nat}
    {cur : List Course} (hr : r < orig.length) (inv : HeapInv orig r a cur)
    (k : String) :
    getArr (setArr a.1 a.2 (sortCourses k (getArr a.1 a.2))) r = getArr orig r ∧
    a.2 ≠ r ∧
    getArr (setArr a.1 a.2 (sortCourses k (getArr a.1 a.2))) a.2 = sortCourses k cur := by
  obtain ⟨h1, h2, h3, h4⟩ := inv
  have hner : a.2 ≠ r := fun he => absurd h2 (by rw [he]; exact not_le.mpr hr)
  refine ⟨?_, hner, ?_⟩
  · rw [getArr_set_ne hner]
    exact h3
  · rw [getArr_set_self h1, h4]

/-- C10: the pipeline never mutates the input array: on the heap model,
`applyFilters` spreads the input into a fresh array, filters into further
fresh arrays, and sorts only the last fresh array in place — afterwards
the input reference still holds exactly its original records in their
original order, the returned reference is a new one, and it holds the
pure pipeline's output. -/
theorem C10_input_not_mutated :
    ∀ (h : CourseHeap) (r : Nat) (q lang lvl k : String), r < h.length →
      getArr (applyFiltersHeap h r q lang lvl k).1 r = getArr h r ∧
      (applyFiltersHeap h r q lang lvl k).2 ≠ r ∧
      getArr (applyFiltersHeap h r q lang lvl k).1 (applyFiltersHeap h r q lang lvl k).2 =
        applyFilters (getArr h r) q lang lvl k := by
  intro h r q lang lvl k hr
  have inv1 := heapInv_init hr
  have inv2 := heapInv_step hr inv1 (q = "") (matchesQuery q)
  have inv3 := heapInv_step hr inv2 (lang = "" ∨ lang = "all")
    (fun c => jsToLower c.language == jsToLower lang)
  have inv4 := heapInv_step hr inv3 (lvl = "" ∨ lvl = "all")
    (fun c => jsToLower c.level == jsToLower lvl)
  have hfinal := heapInv_final hr inv4 k
  exact ⟨hfinal.1, hfinal.2.1, hfinal.2.2⟩

/-- C10 witness: on a heap holding the two-course catalog, running the
pipeline leaves the input array unchanged, returns a fresh reference, and
that reference holds the pure pipeline output. -/
theorem C10_input_not_mutated_witness :
    getArr (applyFiltersHeap heap0 0 "" "" "" "popular").1 0 = getArr heap0 0 ∧
    (applyFiltersHeap heap0 0 "" "" "" "popular").2 ≠ 0 ∧
    getArr (applyFiltersHeap heap0 0 "" "" "" "popular").1
        (applyFiltersHeap heap0 0 "" "" "" "popular").2 =
      applyFilters (getArr heap0 0) "" "" "" "popular" :=
  C10_input_not_mutated heap0 0 "" "" "" "popular" (by decide)
